import Mathlib

/-!
# Verification of the CUP (Computer Use Protocol) formatting and capture layer

A shallow embedding, in Lean 4, of the tree-pruning, compact-serialization,
node-building, CLI and action-handler code of the `computeruseprotocol`
repository, together with theorems settling the specification claims about it.

Embedded sources:
* `src/cup/format.py` — pruning (`_should_skip`, `_should_hoist`, `_prune_node`,
  `_prune_minimal_node`, `prune_tree`) and the compact serializer
  (`_format_line`).
* `src/bench_a11y_tree_fast.py` — the CUP node builder (`build_cup_node`,
  `CUP_ROLES`, `TEXT_INPUT_ROLES`).
* `src/cup/__main__.py` and `src/cup/_router.py` — the CLI exit behaviour.
* `src/cup/actions/_linux.py` and `src/cup/actions/_macos.py` — the
  unimplemented platform action handlers.

Python dicts that represent CUP nodes are embedded as a nested inductive
`CupNode`; a missing optional key is represented by the key's falsy default
(`""` for strings, `[]` for lists, `none` for `bounds`), which is
indistinguishable from an explicitly-present falsy value everywhere in the
embedded code (all reads go through `node.get(key, default)` or truthiness
tests).
-/

/-- A `bounds` rectangle `{x, y, w, h}` as carried by a CUP node dict. -/
structure Bounds where
  x : Int
  y : Int
  w : Int
  h : Int
deriving DecidableEq, Repr

/-- The `attributes` side-car dict of a CUP node, restricted to the keys the
compact serializer `_format_line` reads (`level`, `placeholder`,
`orientation`, `valueMin`, `valueMax`); `none` means the key is absent.
Keys other than these five never influence any embedded code path. -/
structure CupAttrs where
  level : Option Int
  placeholder : Option String
  orientation : Option String
  valueMin : Option String
  valueMax : Option String
deriving DecidableEq, Repr

/-- The attributes dict with no keys. -/
def noAttrs : CupAttrs :=
  { level := none, placeholder := none, orientation := none,
    valueMin := none, valueMax := none }

/-- The scalar fields of a CUP node dict (everything except `children`). -/
structure NodeData where
  id : String
  role : String
  name : String
  value : String
  description : String
  bounds : Option Bounds
  states : List String
  actions : List String
  attrs : CupAttrs
deriving DecidableEq, Repr

/-- A CUP node: scalar data plus the ordered `children` list. -/
inductive CupNode where
  | node (data : NodeData) (children : List CupNode)

mutual

/-- Decidable equality of CUP nodes. -/
def CupNode.decEq : (a b : CupNode) → Decidable (a = b)
  | .node d cs, .node d' cs' =>
    if hd : d = d' then
      match CupNode.decEqList cs cs' with
      | isTrue hcs => isTrue (by rw [hd, hcs])
      | isFalse hcs => isFalse (by intro h; injection h; contradiction)
    else
      isFalse (by intro h; injection h; contradiction)
termination_by structural a => a

/-- Decidable equality of CUP node lists. -/
def CupNode.decEqList : (as bs : List CupNode) → Decidable (as = bs)
  | [], [] => isTrue rfl
  | [], _ :: _ => isFalse nofun
  | _ :: _, [] => isFalse nofun
  | a :: as, b :: bs =>
    match CupNode.decEq a b with
    | isTrue h1 =>
      match CupNode.decEqList as bs with
      | isTrue h2 => isTrue (by rw [h1, h2])
      | isFalse h2 => isFalse (by intro h; injection h; contradiction)
    | isFalse h1 => isFalse (by intro h; injection h; contradiction)
termination_by structural as => as

end

instance : DecidableEq CupNode := CupNode.decEq

/-- The scalar data of a node. -/
def CupNode.data : CupNode → NodeData
  | .node d _ => d

/-- The `children` list of a node (`node.get("children", [])`). -/
def CupNode.children : CupNode → List CupNode
  | .node _ cs => cs

/-- `_should_skip` from `src/cup/format.py` (lines 122–148), on the scalar
data of the node; `parentName` is `parent.get("name")` when a parent dict was
passed (`none` embeds Python's `parent = None`). -/
def shouldSkipD (d : NodeData) (parentName : Option String) (siblings : Nat) : Bool :=
  -- Skip offscreen nodes only if they have no name and no actions
  if d.states.contains "offscreen" && d.name == "" &&
      (d.actions.filter (fun a => a != "focus")).isEmpty then
    true
  -- Skip unnamed decorative images
  else if d.role == "img" && d.name == "" then
    true
  -- Skip empty-name text nodes
  else if d.role == "text" && d.name == "" then
    true
  -- Skip text that is sole child of a named parent (redundant label)
  else if d.role == "text" &&
      (match parentName with | some nm => nm != "" | none => false) &&
      siblings == 1 then
    true
  else
    false

/-- `_should_hoist` from `src/cup/format.py` (lines 151–170). -/
def shouldHoistD (d : NodeData) : Bool :=
  -- Unnamed generic nodes are structural wrappers -- hoist children
  if d.role == "generic" && d.name == "" then
    true
  -- Unnamed group nodes without meaningful actions are structural wrappers
  else if d.role == "group" && d.name == "" &&
      (d.actions.filter (fun a => a != "focus")).isEmpty then
    true
  else
    false

mutual

/-- `_prune_node` from `src/cup/format.py` (lines 177–203): prune a single
node, returning 0 or more replacement nodes.  Hoisted nodes are replaced by
their recursively pruned children; skipped nodes are dropped with their
descendants; kept nodes are re-built with `children` recursively pruned
(the `children` key is dropped when the pruned list is empty, which the
embedding represents as an empty `children` list). -/
def pruneNode (n : CupNode) (parent : Option CupNode) (siblings : Nat) : List CupNode :=
  match n with
  | .node d cs =>
    if shouldHoistD d then
      prunePass cs parent cs.length
    else if shouldSkipD d (parent.map (fun p => p.data.name)) siblings then
      []
    else
      [.node d (prunePass cs (some (.node d cs)) cs.length)]
termination_by structural n

/-- The `for child in children: result.extend(_prune_node(child, …, len(children)))`
loops of `_prune_node` and `prune_tree`. -/
def prunePass (cs : List CupNode) (parent : Option CupNode) (siblings : Nat) : List CupNode :=
  match cs with
  | [] => []
  | c :: rest => pruneNode c parent siblings ++ prunePass rest parent siblings
termination_by structural cs

end

/-- `_has_meaningful_actions` from `src/cup/format.py` (lines 206–209). -/
def hasMeaningfulActions (d : NodeData) : Bool :=
  d.actions.any (fun a => a != "focus")

mutual

/-- `_prune_minimal_node` from `src/cup/format.py` (lines 212–234): keep a
node iff it has actions beyond `focus` or some descendant is kept. -/
def pruneMinimalNode (n : CupNode) : Option CupNode :=
  match n with
  | .node d cs =>
    let kept := pruneMinimalPass cs
    if hasMeaningfulActions d || !kept.isEmpty then
      some (.node d kept)
    else
      none
termination_by structural n

/-- The child-collection loop of `_prune_minimal_node` (and of the
`detail == "minimal"` branch of `prune_tree`). -/
def pruneMinimalPass (cs : List CupNode) : List CupNode :=
  match cs with
  | [] => []
  | c :: rest =>
    match pruneMinimalNode c with
    | some c' => c' :: pruneMinimalPass rest
    | none => pruneMinimalPass rest
termination_by structural cs

end

/-- The `Detail` literal type of `src/cup/format.py` (line 13). -/
inductive Detail where
  | standard
  | minimal
  | full
deriving DecidableEq, Repr

/-- `prune_tree` from `src/cup/format.py` (lines 237–265).  `detail="full"`
returns `copy.deepcopy(tree)`, which is structurally identical to `tree`, so
the pure embedding is the identity. -/
def pruneTree (tree : List CupNode) (detail : Detail) : List CupNode :=
  match detail with
  | .full => tree
  | .minimal => pruneMinimalPass tree
  | .standard => prunePass tree none tree.length

mutual

/-- All node ids of a tree, in preorder. -/
def nodeIds : CupNode → List String
  | .node d cs => d.id :: forestIds cs
termination_by structural n => n

/-- All node ids of a forest, in preorder. -/
def forestIds : List CupNode → List String
  | [] => []
  | c :: rest => nodeIds c ++ forestIds rest
termination_by structural cs => cs

end

mutual

/-- All nodes of a tree (the node itself and its descendants), in preorder. -/
def nodeList : CupNode → List CupNode
  | .node d cs => .node d cs :: forestList cs
termination_by structural n => n

/-- All nodes of a forest, in preorder. -/
def forestList : List CupNode → List CupNode
  | [] => []
  | c :: rest => nodeList c ++ forestList rest
termination_by structural cs => cs

end

/-- Does `p` occur at the start of `c`? -/
def charsStartWith : List Char → List Char → Bool
  | [], _ => true
  | _ :: _, [] => false
  | p :: ps, c :: cs => p == c && charsStartWith ps cs

/-- Left-to-right, non-overlapping replacement over character lists, the
semantics of Python `str.replace` for a non-empty pattern (every pattern the
embedded code passes is non-empty).  The `fuel` argument is only a structural
termination measure; `fuel = length of the scanned list` always suffices
because each step consumes at least one character. -/
def replaceGo (pat rep : List Char) : Nat → List Char → List Char
  | _, [] => []
  | 0, s => s
  | Nat.succ fuel, c :: rest =>
    if charsStartWith pat (c :: rest) then
      rep ++ replaceGo pat rep fuel (List.drop (pat.length - 1) rest)
    else
      c :: replaceGo pat rep fuel rest

/-- Python `s.replace(pat, rep)` (for non-empty `pat`). -/
def pyReplace (s pat rep : String) : String :=
  ⟨replaceGo pat.data rep.data s.data.length s.data⟩

/-- Python `s[:k]` (slicing by code points). -/
def pyTake (s : String) (k : Nat) : String :=
  ⟨s.data.take k⟩

/-- The name-escaping of `_format_line` (`src/cup/format.py` line 276):
`.replace(backslash, double backslash).replace(quote, backslash-quote).replace(newline, space)`. -/
def escapeName (s : String) : String :=
  pyReplace (pyReplace (pyReplace s "\\" "\\\\") "\"" "\\\"") "\n" " "

/-- Python `s[:k] + ("..." if len(s) > k else "")`. -/
def truncateDots (s : String) (k : Nat) : String :=
  pyTake s k ++ (if s.length > k then "..." else "")

/-- The `@x,y wxh` bounds segment of `_format_line` (line 281). -/
def boundsPart (b : Bounds) : String :=
  "@" ++ toString b.x ++ "," ++ toString b.y ++ " " ++
    toString b.w ++ "x" ++ toString b.h

/-- The role tuple of `_format_line` line 294: roles for which a `val=` field
is emitted in compact text. -/
def VAL_ROLES : List String :=
  ["textbox", "searchbox", "combobox", "spinbutton", "slider"]

/-- Lines 293–297 of `src/cup/format.py` (`_format_line`): the optional
`val="…"` part.  The value is emitted only for the roles in `VAL_ROLES` and
only when non-empty; it is cut at 120 characters with a `...` suffix and has
double quotes and newlines escaped (but, unlike the name, not backslashes). -/
def valSegment (n : CupNode) : Option String :=
  let value := n.data.value
  if value != "" && VAL_ROLES.contains n.data.role then
    let tv := truncateDots value 120
    let tv := pyReplace (pyReplace tv "\"" "\\\"") "\n" " "
    some ("val=\"" ++ tv ++ "\"")
  else
    none

/-- Lines 299–316 of `src/cup/format.py` (`_format_line`): the compact
attribute parts (`L<level>`, `ph="…"`, orientation initial, `range=…`). -/
def attrParts (a : CupAttrs) : List String :=
  (match a.level with
    | some l => ["L" ++ toString l]
    | none => []) ++
  (match a.placeholder with
    | some p => ["ph=\"" ++ pyReplace (pyReplace (pyTake p 30) "\"" "\\\"") "\n" " " ++ "\""]
    | none => []) ++
  (match a.orientation with
    | some o => [pyTake o 1]
    | none => []) ++
  (match a.valueMin, a.valueMax with
    | none, none => []
    | vmin, vmax => ["range=" ++ vmin.getD "" ++ ".." ++ vmax.getD ""])

/-- The `parts` list built by `_format_line` (`src/cup/format.py`
lines 268–318), in order: `[id]`, role, quoted escaped truncated name,
bounds, `{states}`, `[actions]` with `focus` filtered out, `val="…"`,
and the parenthesised attribute parts. -/
def formatLineParts (n : CupNode) : List String :=
  let d := n.data
  ["[" ++ d.id ++ "]", d.role] ++
  (if d.name != "" then ["\"" ++ escapeName (truncateDots d.name 80) ++ "\""] else []) ++
  (match d.bounds with
    | some b => [boundsPart b]
    | none => []) ++
  (if !d.states.isEmpty then ["\x7b" ++ String.intercalate "," d.states ++ "\x7d"] else []) ++
  (let actions := d.actions.filter (fun a => a != "focus")
   if !actions.isEmpty then ["[" ++ String.intercalate "," actions ++ "]"] else []) ++
  (match valSegment n with
    | some v => [v]
    | none => []) ++
  (let ap := attrParts n.data.attrs
   if !ap.isEmpty then ["(" ++ String.intercalate " " ap ++ ")"] else [])

/-- `_format_line` from `src/cup/format.py` (lines 268–318):
`" ".join(parts)`. -/
def formatLine (n : CupNode) : String :=
  String.intercalate " " (formatLineParts n)

/-- `CUP_ROLES` from `src/bench_a11y_tree_fast.py` (lines 124–166): the
static UIA control-type → canonical CUP role table, as an association list
(the embedding of the Python dict). -/
def CUP_ROLES : List (Nat × String) :=
  [(50000, "button"),        -- Button
   (50001, "grid"),          -- Calendar
   (50002, "checkbox"),      -- CheckBox
   (50003, "combobox"),      -- ComboBox
   (50004, "textbox"),       -- Edit
   (50005, "link"),          -- Hyperlink
   (50006, "img"),           -- Image
   (50007, "listitem"),      -- ListItem
   (50008, "list"),          -- List
   (50009, "menu"),          -- Menu
   (50010, "menubar"),       -- MenuBar
   (50011, "menuitem"),      -- MenuItem
   (50012, "progressbar"),   -- ProgressBar
   (50013, "radio"),         -- RadioButton
   (50014, "scrollbar"),     -- ScrollBar
   (50015, "slider"),        -- Slider
   (50016, "spinbutton"),    -- Spinner
   (50017, "status"),        -- StatusBar
   (50018, "tablist"),       -- Tab (the container)
   (50019, "tab"),           -- TabItem
   (50020, "text"),          -- Text
   (50021, "toolbar"),       -- ToolBar
   (50022, "tooltip"),       -- ToolTip
   (50023, "tree"),          -- Tree
   (50024, "treeitem"),      -- TreeItem
   (50025, "generic"),       -- Custom
   (50026, "group"),         -- Group
   (50027, "generic"),       -- Thumb
   (50028, "grid"),          -- DataGrid
   (50029, "row"),           -- DataItem
   (50030, "document"),      -- Document
   (50031, "button"),        -- SplitButton
   (50032, "window"),        -- Window
   (50033, "generic"),       -- Pane — context-dependent, refined in build
   (50034, "group"),         -- Header
   (50035, "columnheader"),  -- HeaderItem
   (50036, "table"),         -- Table
   (50037, "titlebar"),      -- TitleBar
   (50038, "separator"),     -- Separator
   (50039, "generic"),       -- SemanticZoom
   (50040, "toolbar")]       -- AppBar

/-- Python `CUP_ROLES.get(ct, "generic")`. -/
def cupRolesGet (ct : Nat) : String :=
  (CUP_ROLES.lookup ct).getD "generic"

/-- `TEXT_INPUT_ROLES` from `src/bench_a11y_tree_fast.py` (line 169). -/
def TEXT_INPUT_ROLES : List String :=
  ["textbox", "searchbox", "combobox", "document"]

/-- The 21 cached UIA properties of one element, as read by `build_cup_node`
in `src/bench_a11y_tree_fast.py` (lines 288–346) after the cached-property
helpers have applied their defaults.  Field names follow the local variables
of `build_cup_node`; `bounds` is `none` when the cached bounding rectangle
was missing or malformed (the code then sets `bounds = None`). -/
structure UiaElement where
  name : String
  controlType : Nat
  bounds : Option Bounds
  isEnabled : Bool
  hasFocus : Bool
  isOffscreen : Bool
  hasInvoke : Bool
  hasToggle : Bool
  hasExpand : Bool
  hasValue : Bool
  hasSelItem : Bool
  hasScroll : Bool
  hasRange : Bool
  toggleState : Int
  expandState : Int
  isSelected : Bool
  cachedValReadonly : Bool
  cachedValStr : String
  automationId : String
  className : String
  helpText : String
deriving DecidableEq, Repr

/-- Line 340 of `build_cup_node`:
`val_readonly = _cached_bool(...) if has_value else False`. -/
def UiaElement.valReadonly (el : UiaElement) : Bool :=
  if el.hasValue then el.cachedValReadonly else false

/-- Line 341 of `build_cup_node`:
`val_str = _cached_str(...) if has_value else ""`. -/
def UiaElement.valStr (el : UiaElement) : String :=
  if el.hasValue then el.cachedValStr else ""

/-- Lines 348–351 of `build_cup_node`: `role = CUP_ROLES.get(ct, "generic")`,
then a pane (control type 50033) with a truthy (non-empty) name is promoted
to `region`. -/
def buildRole (el : UiaElement) : String :=
  let role := cupRolesGet el.controlType
  if el.controlType == 50033 && el.name != "" then "region" else role

/-- Lines 353–376 of `build_cup_node`: the `states` list, in append order. -/
def buildStates (el : UiaElement) : List String :=
  (if !el.isEnabled then ["disabled"] else []) ++
  (if el.hasFocus then ["focused"] else []) ++
  (if el.isOffscreen then ["offscreen"] else []) ++
  (if el.hasToggle then
    (if el.toggleState == 1 then ["checked"]
     else if el.toggleState == 2 then ["mixed"] else [])
   else []) ++
  (if el.hasExpand then
    (if el.expandState == 0 then ["collapsed"]
     else if el.expandState == 1 || el.expandState == 2 then ["expanded"] else [])
   else []) ++
  (if el.isSelected then ["selected"] else []) ++
  (if el.hasValue && el.valReadonly then ["readonly"] else []) ++
  (if el.hasValue && !el.valReadonly && TEXT_INPUT_ROLES.contains (buildRole el) then
    ["editable"]
   else [])

/-- Lines 378–397 of `build_cup_node`: the actions accumulated from the
supported UIA patterns, before the `focus` fallback. -/
def derivedActions (el : UiaElement) : List String :=
  (if el.hasInvoke then ["click"] else []) ++
  (if el.hasToggle then ["toggle"] else []) ++
  (if el.hasExpand && el.expandState != 3 then ["expand", "collapse"] else []) ++  -- 3 = LeafNode
  (if el.hasValue && !el.valReadonly then
    ["setvalue"] ++ (if TEXT_INPUT_ROLES.contains (buildRole el) then ["type"] else [])
   else []) ++
  (if el.hasSelItem then ["select"] else []) ++
  (if el.hasScroll then ["scroll"] else []) ++
  (if el.hasRange then ["increment", "decrement"] else [])

/-- Lines 398–399 of `build_cup_node`:
`if not actions and is_enabled: actions.append("focus")`. -/
def buildActions (el : UiaElement) : List String :=
  let actions := derivedActions el
  if actions.isEmpty && el.isEnabled then ["focus"] else actions

/-- `build_cup_node` from `src/bench_a11y_tree_fast.py` (lines 288–439),
restricted to the CUP node dict it assembles (the `stats` bookkeeping and the
`platform` side-car are not needed by any claim; absent optional keys are the
falsy defaults of the embedding).  `counter` is the value drawn from the
`itertools.count()` id generator. -/
def build_cup_node (el : UiaElement) (counter : Nat) : CupNode :=
  .node
    { id := "e" ++ toString counter,
      role := buildRole el,
      name := pyTake el.name 200,
      description := pyTake el.helpText 200,
      value := pyTake el.valStr 200,
      bounds := el.bounds,
      states := buildStates el,
      actions := buildActions el,
      attrs := noAttrs } []

/-- Python `s.lower()` (ASCII-adequate: every title and filter the embedded
CLI compares is compared case-insensitively character by character). -/
def pyLower (s : String) : String :=
  ⟨s.data.map Char.toLower⟩

/-- Does `needle` occur inside `hay`?  (Python `needle in hay` on strings.) -/
def charsContain (needle : List Char) : List Char → Bool
  | [] => needle.isEmpty
  | c :: rest => charsStartWith needle (c :: rest) || charsContain needle rest

/-- Python `needle in hay` for strings. -/
def pyInStr (needle hay : String) : Bool :=
  charsContain needle.data hay.data

/-- A window descriptor as consumed by the CLI window filter
(`src/cup/__main__.py` lines 65–66 read only `w["title"]`). -/
structure WinDesc where
  title : String
deriving DecidableEq, Repr

/-- Outcome of `get_adapter` (`src/cup/_router.py` lines 26–64): either an
initialized adapter, or an uncaught exception (`RuntimeError` for an
unsupported platform, or any import/`initialize` failure). -/
inductive InitOutcome where
  | ok
  | failed (msg : String)
deriving DecidableEq, Repr

/-- The process exit code of `python -m cup` (`src/cup/__main__.py`,
`main`, lines 14–139), as a function of the adapter-initialization outcome
and the window-filter inputs; the capture/serialization phase that follows a
successful filter is not modelled (it ends in a normal return, exit code 0).

* `get_adapter` raising propagates out of `main`; CPython exits with status 1
  on an uncaught exception.
* A window-filter miss (lines 67–69) prints `No window found matching …` and
  executes a plain `return`, so the interpreter exits normally with status 0.
* Every other path falls off the end of `main` and exits with status 0. -/
def cupCliExitCode (init : InitOutcome) (foreground : Bool)
    (windows : List WinDesc) (appFilter : Option String) : Nat :=
  match init with
  | .failed _ => 1
  | .ok =>
    if foreground then 0
    else
      match appFilter with
      | some app =>
        let ws := windows.filter (fun w => pyInStr (pyLower app) (pyLower w.title))
        if ws.isEmpty then 0 else 0
      | none => 0

/-- The `ActionResult` shape returned by every platform action handler
(`{success, message, error}`; an absent `error` is the empty string). -/
structure ActionResult where
  success : Bool
  message : String
  error : String
deriving DecidableEq, Repr

/-- `LinuxActionHandler.execute` from `src/cup/actions/_linux.py`
(lines 18–24). -/
def LinuxActionHandler.execute {α : Type} (nativeRef : α) (action : String)
    (params : List (String × String)) : ActionResult :=
  { success := false, message := "",
    error := "Linux action \x27" ++ action ++ "\x27 is not yet implemented" }

/-- `LinuxActionHandler.press_keys` from `src/cup/actions/_linux.py`
(lines 26–30). -/
def LinuxActionHandler.press_keys (combo : String) : ActionResult :=
  { success := false, message := "",
    error := "Linux press_keys \x27" ++ combo ++ "\x27 is not yet implemented" }

/-- `LinuxActionHandler.launch_app` from `src/cup/actions/_linux.py`
(lines 32–36). -/
def LinuxActionHandler.launch_app (name : String) : ActionResult :=
  { success := false, message := "",
    error := "Linux launch_app \x27" ++ name ++ "\x27 is not yet implemented" }

/-- `MacosActionHandler.execute` from `src/cup/actions/_macos.py`
(lines 17–23). -/
def MacosActionHandler.execute {α : Type} (nativeRef : α) (action : String)
    (params : List (String × String)) : ActionResult :=
  { success := false, message := "",
    error := "macOS action execution is not yet implemented" }

/-- `MacosActionHandler.press_keys` from `src/cup/actions/_macos.py`
(lines 25–29). -/
def MacosActionHandler.press_keys (combo : String) : ActionResult :=
  { success := false, message := "",
    error := "macOS keyboard input is not yet implemented" }

/-- Modelled from the spec: the `ActionHandler` base class
(`cup/actions/_handler.py`) is not under `src/`.  Per §4.6 the platform
handler is polymorphic over `{execute, press_keys, launch_app}` and "On an
unimplemented backend, all methods return `success=false` with an
explanatory error — never a crash"; the base-class `launch_app` default is
therefore modelled as such a failure result. -/
def ActionHandler.launch_app (name : String) : ActionResult :=
  { success := false, message := "",
    error := "launch_app is not implemented on this backend" }

/-- `MacosActionHandler` (`src/cup/actions/_macos.py`) does not override
`launch_app`; calls fall through to the `ActionHandler` base class. -/
def MacosActionHandler.launch_app (name : String) : ActionResult :=
  ActionHandler.launch_app name

/-- A Python heap object of the tree representation: a CUP node dict (its
scalar data plus the address of its `children` list object, if the key is
present), or a list object holding addresses of node dicts. -/
inductive PyObj where
  | dict (data : NodeData) (children : Option Nat)
  | list (elems : List Nat)
deriving DecidableEq, Repr

/-- A Python heap: objects addressed by their index.  Allocation appends;
`List.set` is an in-place field update. -/
abbrev PyHeap := List PyObj

/-- Read a list object (used for `children` lists and the root list). -/
def readListS (σ : PyHeap) (a : Nat) : List Nat :=
  match σ.get? a with
  | some (.list es) => es
  | _ => []

/-- `node.get("children", [])` in the heap model. -/
def readChildrenS (σ : PyHeap) (ca : Option Nat) : List Nat :=
  match ca with
  | none => []
  | some a => readListS σ a

/-- `parent.get("name")` in the heap model (`none` embeds `parent = None`
or a dangling reference). -/
def parentNameS (σ : PyHeap) (parent : Option Nat) : Option String :=
  match parent with
  | none => none
  | some pa =>
    match σ.get? pa with
    | some (.dict d _) => some d.name
    | _ => none

mutual

/-- `_prune_node` on the explicit heap: the same control flow as `pruneNode`,
but every Python allocation (`result = []` aside, dict and list literals) is
an append to the heap, and `pruned["children"] = pruned_children` is the one
genuine field write, performed with `List.set` on the freshly allocated dict.
`fuel` bounds the recursion depth (the heap representation, unlike `CupNode`,
is not structurally acyclic); any `fuel` is enough to state the frame
property, which holds for every run. -/
def pruneNodeS : Nat → Nat → Option Nat → Nat → PyHeap → List Nat × PyHeap
  | 0, _, _, _, σ => ([], σ)
  | Nat.succ fuel, a, parent, siblings, σ =>
    match σ.get? a with
    | some (.dict d ca) =>
      let children := readChildrenS σ ca
      if shouldHoistD d then
        prunePassS fuel children parent children.length σ
      else if shouldSkipD d (parentNameS σ parent) siblings then
        ([], σ)
      else
        let res := prunePassS fuel children (some a) children.length σ
        -- pruned = {k: v for k, v in node.items() if k != "children"}
        let pa := res.2.length
        let σ₂ := res.2 ++ [PyObj.dict d none]
        if res.1.isEmpty then
          ([pa], σ₂)
        else
          -- pruned["children"] = pruned_children
          let la := σ₂.length
          ((([pa] : List Nat)), (σ₂ ++ [PyObj.list res.1]).set pa (PyObj.dict d (some la)))
    | _ => ([], σ)

/-- The `result.extend(_prune_node(child, …))` loop on the explicit heap. -/
def prunePassS : Nat → List Nat → Option Nat → Nat → PyHeap → List Nat × PyHeap
  | _, [], _, _, σ => ([], σ)
  | fuel, c :: rest, parent, siblings, σ =>
    let r1 := pruneNodeS fuel c parent siblings σ
    let r2 := prunePassS fuel rest parent siblings r1.2
    (r1.1 ++ r2.1, r2.2)

end

mutual

/-- `_prune_minimal_node` on the explicit heap. -/
def pruneMinimalNodeS : Nat → Nat → PyHeap → Option Nat × PyHeap
  | 0, _, σ => (none, σ)
  | Nat.succ fuel, a, σ =>
    match σ.get? a with
    | some (.dict d ca) =>
      let res := pruneMinimalPassS fuel (readChildrenS σ ca) σ
      if hasMeaningfulActions d || !res.1.isEmpty then
        let pa := res.2.length
        let σ₂ := res.2 ++ [PyObj.dict d none]
        if res.1.isEmpty then
          (some pa, σ₂)
        else
          let la := σ₂.length
          (some pa, (σ₂ ++ [PyObj.list res.1]).set pa (PyObj.dict d (some la)))
      else
        (none, res.2)
    | _ => (none, σ)

/-- The kept-children collection loop of `_prune_minimal_node` on the
explicit heap. -/
def pruneMinimalPassS : Nat → List Nat → PyHeap → List Nat × PyHeap
  | _, [], σ => ([], σ)
  | fuel, c :: rest, σ =>
    let r1 := pruneMinimalNodeS fuel c σ
    let r2 := pruneMinimalPassS fuel rest r1.2
    (match r1.1 with
      | some c' => c' :: r2.1
      | none => r2.1, r2.2)

end

mutual

/-- `copy.deepcopy` of one node dict on the explicit heap: fresh copies of
the children list object and the dict, no writes to existing objects. -/
def deepcopyNodeS : Nat → Nat → PyHeap → Nat × PyHeap
  | 0, a, σ => (a, σ)
  | Nat.succ fuel, a, σ =>
    match σ.get? a with
    | some (.dict d ca) =>
      match ca with
      | none => (σ.length, σ ++ [PyObj.dict d none])
      | some la =>
        let res := deepcopyListS fuel (readListS σ la) σ
        let nla := res.2.length
        let σ₁ := res.2 ++ [PyObj.list res.1]
        (σ₁.length, σ₁ ++ [PyObj.dict d (some nla)])
    | _ => (a, σ)

/-- `copy.deepcopy` of a list of node addresses on the explicit heap. -/
def deepcopyListS : Nat → List Nat → PyHeap → List Nat × PyHeap
  | _, [], σ => ([], σ)
  | fuel, e :: rest, σ =>
    let r1 := deepcopyNodeS fuel e σ
    let r2 := deepcopyListS fuel rest r1.2
    (r1.1 :: r2.1, r2.2)

end

/-- `prune_tree` on the explicit heap (`src/cup/format.py` lines 237–265):
dispatch on the detail level; `roots` is the contents of the caller's `tree`
list. -/
def pruneTreeS (fuel : Nat) (detail : Detail) (roots : List Nat) (σ : PyHeap) :
    List Nat × PyHeap :=
  match detail with
  | .full => deepcopyListS fuel roots σ
  | .minimal => pruneMinimalPassS fuel roots σ
  | .standard => prunePassS fuel roots none roots.length σ

/-- Heap evolution of the Python run: the new heap is at least as long and
agrees with the old one on every existing address — i.e. no existing object
(node dict or children list) was mutated. -/
def HeapPreserved (σ σ' : PyHeap) : Prop :=
  σ.length ≤ σ'.length ∧ ∀ i, i < σ.length → σ'.get? i = σ.get? i

/-- An all-defaults node-data record used to build concrete test trees
(every optional key absent, every string empty). -/
def exData : NodeData :=
  { id := "", role := "", name := "", value := "", description := "",
    bounds := none, states := [], actions := [], attrs := noAttrs }

/-- A concrete tree on which standard pruning is not idempotent: a named
button whose children are a text node and an unnamed image.  The first pass
drops the image (leaving the text as sole child); the second pass then drops
the text as a redundant label of its named parent. -/
def exIdem : List CupNode :=
  [.node { exData with id := "e0", role := "button", name := "P" }
    [.node { exData with id := "e1", role := "text", name := "t" } [],
     .node { exData with id := "e2", role := "img", name := "" } []]]

/-- A concrete tree on which minimal pruning is not contained in standard
pruning: an unnamed image with a `click` action.  Standard pruning skips it
(unnamed decorative image); minimal pruning keeps it (meaningful action). -/
def exMono : List CupNode :=
  [.node { exData with id := "e0", role := "img", name := "", actions := ["click"] } []]

/-- The concrete node of end-to-end scenario 5 of the spec. -/
def exC4 : CupNode :=
  .node { exData with
          id := "e0", role := "button", name := "Submit",
          bounds := some ⟨100, 200, 80, 30⟩,
          states := ["focused"], actions := ["click", "focus"] } []

/-- A spinbutton carrying a value: the compact serializer renders `val="42"`
for it although `spinbutton` is not in `TEXT_INPUT_ROLES`. -/
def exSpin : CupNode :=
  .node { exData with id := "e0", role := "spinbutton", value := "42" } []

/-- A UIA element with every cached property at its documented default
(an enabled button exposing no patterns). -/
def elBase : UiaElement :=
  { name := "", controlType := 50000, bounds := none, isEnabled := true,
    hasFocus := false, isOffscreen := false, hasInvoke := false,
    hasToggle := false, hasExpand := false, hasValue := false,
    hasSelItem := false, hasScroll := false, hasRange := false,
    toggleState := -1, expandState := -1, isSelected := false,
    cachedValReadonly := false, cachedValStr := "", automationId := "",
    className := "", helpText := "" }

/-- A one-object heap for exercising the heap frame theorem. -/
def exHeap : PyHeap :=
  [PyObj.dict { exData with id := "e0", role := "button", name := "OK" } none]

/-- The window list of the CLI counterexample: one visible window titled
`Notepad`. -/
def exWindows : List WinDesc := [{ title := "Notepad" }]

/-!
## Theorems

One theorem (plus, where required, a counterexample and a witness) per claim
of the specification, with shared helper lemmas in between.
-/

/-- Claim C4: compact serialization of the node
`{id:e0, role:button, name:"Submit", bounds:{x:100,y:200,w:80,h:30},
states:[focused], actions:[click, focus]}` produces exactly the line
`[e0] button "Submit" @100,200 80x30 \x7bfocused\x7d [click]`; in
particular the `focus` action is omitted from the rendered actions list. -/
theorem C4_compact_line :
    formatLine exC4 = "[e0] button \"Submit\" @100,200 80x30 \x7bfocused\x7d [click]" := by
  decide

/-- Counterexample to claim C5 as stated: the compact serializer renders a
`val="…"` field for a `spinbutton` (here `val="42"`), although `spinbutton`
is not in the text-input role set `{textbox, searchbox, combobox, document}`
named by the claim. -/
theorem C5_counterexample :
    valSegment exSpin = some "val=\"42\"" ∧
    TEXT_INPUT_ROLES.contains exSpin.data.role = false := by
  decide

/-- Claim C5 (amended): a `val="…"` field is rendered exactly when the
node's role is in the serializer's role tuple
`{textbox, searchbox, combobox, spinbutton, slider}` (not the claim's
`{textbox, searchbox, combobox, document}`) and the value is non-empty, and
the rendered value is the value truncated to 120 characters (with a `...`
suffix when longer) with quotes and newlines escaped. -/
theorem C5_val_roles (n : CupNode) :
    ((valSegment n).isSome ↔ n.data.role ∈ VAL_ROLES ∧ n.data.value ≠ "") ∧
    (∀ s, valSegment n = some s →
      s = "val=\"" ++
        pyReplace (pyReplace (truncateDots n.data.value 120) "\"" "\\\"") "\n" " " ++
        "\"") := by
  constructor
  · unfold valSegment
    by_cases hv : n.data.value = "" <;>
      by_cases hr : n.data.role ∈ VAL_ROLES <;>
        simp [hv, hr]
  · intro st hst
    unfold valSegment at hst
    by_cases hc : (n.data.value != "" && VAL_ROLES.contains n.data.role) = true
    · rw [if_pos hc] at hst
      exact (Option.some.injEq _ _ ▸ hst).symm
    · rw [if_neg hc] at hst
      exact absurd hst (by simp)

/-- Witness for C5: instantiating the amended theorem at the concrete
spinbutton node shows its role is in the code's role tuple with a non-empty
value. -/
theorem C5_val_roles_witness :
    exSpin.data.role ∈ VAL_ROLES ∧ exSpin.data.value ≠ "" :=
  (C5_val_roles exSpin).1.mp (by decide)

/-- Counterexample to claim C6 as stated: with a successfully initialized
adapter and a window filter that matches nothing (`--app chrome` against a
single window titled `Notepad`), `main` prints a message and returns
normally, so the process exits with code 0, not 2. -/
theorem C6_counterexample :
    (exWindows.filter (fun w => pyInStr (pyLower "chrome") (pyLower w.title))).isEmpty = true ∧
    cupCliExitCode .ok false exWindows (some "chrome") = 0 ∧
    cupCliExitCode .ok false exWindows (some "chrome") ≠ 2 := by
  decide

/-- Claim C6 (amended): the CLI process exits with code 0 on success and
with code 1 when adapter initialization fails (an uncaught exception);
a window-filter miss also exits with code 0 (after printing
`No window found matching …`), not 2 — no path exits with code 2. -/
theorem C6_exit_codes (fg : Bool) (windows : List WinDesc) (appFilter : Option String) :
    (∀ msg, cupCliExitCode (.failed msg) fg windows appFilter = 1) ∧
    cupCliExitCode .ok fg windows appFilter = 0 := by
  refine ⟨fun msg => rfl, ?_⟩
  cases fg with
  | true => rfl
  | false =>
    cases appFilter with
    | none => rfl
    | some app => simp [cupCliExitCode]

/-- A string concatenation is at least as long as its left part (used to show
the handler error messages are non-empty for every input). -/
theorem strlen_append_pos (a b : String) (h : 0 < a.length) : 0 < (a ++ b).length := by
  rw [String.length_append]
  omega

/-- Claim C7: on the unimplemented Linux and macOS backends, every
action-handler method (`execute`, `press_keys`, `launch_app`), for every
input, returns a result with `success = false` and a non-empty explanatory
error string (the methods are total functions of their inputs, so no call
raises).  The macOS `launch_app` is the spec-modelled `ActionHandler`
base-class default, which `MacosActionHandler` does not override. -/
theorem C7_unimplemented_handlers {α : Type} (nativeRef : α) (action : String)
    (params : List (String × String)) (combo name : String) :
    ((LinuxActionHandler.execute nativeRef action params).success = false ∧
      0 < (LinuxActionHandler.execute nativeRef action params).error.length) ∧
    ((LinuxActionHandler.press_keys combo).success = false ∧
      0 < (LinuxActionHandler.press_keys combo).error.length) ∧
    ((LinuxActionHandler.launch_app name).success = false ∧
      0 < (LinuxActionHandler.launch_app name).error.length) ∧
    ((MacosActionHandler.execute nativeRef action params).success = false ∧
      0 < (MacosActionHandler.execute nativeRef action params).error.length) ∧
    ((MacosActionHandler.press_keys combo).success = false ∧
      0 < (MacosActionHandler.press_keys combo).error.length) ∧
    ((MacosActionHandler.launch_app name).success = false ∧
      0 < (MacosActionHandler.launch_app name).error.length) := by
  refine ⟨⟨rfl, ?_⟩, ⟨rfl, ?_⟩, ⟨rfl, ?_⟩,
    ⟨rfl, by show 0 < ("macOS action execution is not yet implemented" : String).length; decide⟩,
    ⟨rfl, by show 0 < ("macOS keyboard input is not yet implemented" : String).length; decide⟩,
    ⟨rfl, by show 0 < ("launch_app is not implemented on this backend" : String).length; decide⟩⟩
  · exact strlen_append_pos _ _ (strlen_append_pos _ _ (by decide))
  · exact strlen_append_pos _ _ (strlen_append_pos _ _ (by decide))
  · exact strlen_append_pos _ _ (strlen_append_pos _ _ (by decide))

/-- Claim C8: if the pattern-derived action rules produce no actions and the
element is enabled, the built node's `actions` list is exactly `[focus]`;
the fallback is not added when any action was accumulated or when the
element is disabled (then `actions` is exactly the derived list). -/
theorem C8_focus_fallback (el : UiaElement) (counter : Nat) :
    (derivedActions el = [] ∧ el.isEnabled = true →
      (build_cup_node el counter).data.actions = ["focus"]) ∧
    (derivedActions el ≠ [] →
      (build_cup_node el counter).data.actions = derivedActions el) ∧
    (el.isEnabled = false →
      (build_cup_node el counter).data.actions = derivedActions el) := by
  refine ⟨fun h => ?_, fun h => ?_, fun h => ?_⟩
  · show buildActions el = ["focus"]
    unfold buildActions
    simp [h.1, h.2]
  · show buildActions el = derivedActions el
    unfold buildActions
    simp [List.isEmpty_iff, h]
  · show buildActions el = derivedActions el
    unfold buildActions
    simp [h]

/-- Witness for C8: an enabled element with no patterns gets exactly
`[focus]`; an element exposing the invoke pattern keeps `["click"]` with no
fallback; a disabled pattern-less element gets no actions at all. -/
theorem C8_focus_fallback_witness :
    (build_cup_node elBase 0).data.actions = ["focus"] ∧
    (build_cup_node { elBase with hasInvoke := true } 1).data.actions =
      derivedActions { elBase with hasInvoke := true } ∧
    (build_cup_node { elBase with isEnabled := false } 2).data.actions =
      derivedActions { elBase with isEnabled := false } :=
  ⟨(C8_focus_fallback elBase 0).1 ⟨by decide, by decide⟩,
   (C8_focus_fallback { elBase with hasInvoke := true } 1).2.1 (by decide),
   (C8_focus_fallback { elBase with isEnabled := false } 2).2.2 (by decide)⟩

/-- `List.lookup` returns `none` when the key is not among the keys. -/
theorem lookup_eq_none_of_not_mem (l : List (Nat × String)) (a : Nat)
    (h : a ∉ l.map Prod.fst) : l.lookup a = none := by
  induction l with
  | nil => rfl
  | cons p rest ih =>
    simp only [List.map_cons, List.mem_cons] at h
    push_neg at h
    rw [List.lookup_cons]
    have hne : (a == p.1) = false := by
      simp [h.1]
    rw [hne]
    exact ih h.2

/-- `List.lookup` finds the value of a present key when the keys are
duplicate-free. -/
theorem lookup_eq_some_of_mem (l : List (Nat × String)) (a : Nat) (b : String)
    (hnd : (l.map Prod.fst).Nodup) (hmem : (a, b) ∈ l) : l.lookup a = some b := by
  induction l with
  | nil => cases hmem
  | cons p rest ih =>
    simp only [List.map_cons, List.nodup_cons] at hnd
    rw [List.lookup_cons]
    rcases List.mem_cons.mp hmem with heq | htail
    · subst heq
      simp
    · have hne : (a == p.1) = false := by
        have : a ∈ rest.map Prod.fst := List.mem_map.mpr ⟨(a, b), htail, rfl⟩
        have : a ≠ p.1 := fun hc => hnd.1 (hc ▸ this)
        simp [this]
      rw [hne]
      exact ih hnd.2 htail

/-- Claim C9: a captured element with control type 50033 (Pane) gets role
`region` iff its name is non-empty, and `generic` otherwise; every other
control type maps through the static `CUP_ROLES` table, and control types
outside the table map to `generic`. -/
theorem C9_role_mapping (el : UiaElement) (counter : Nat) :
    (el.controlType = 50033 →
      (build_cup_node el counter).data.role =
        (if el.name = "" then "generic" else "region")) ∧
    (∀ r, el.controlType ≠ 50033 → (el.controlType, r) ∈ CUP_ROLES →
      (build_cup_node el counter).data.role = r) ∧
    (el.controlType ∉ CUP_ROLES.map Prod.fst →
      (build_cup_node el counter).data.role = "generic") := by
  refine ⟨fun h => ?_, fun r hne hmem => ?_, fun hnot => ?_⟩
  · show buildRole el = _
    unfold buildRole
    by_cases hn : el.name = ""
    · simp [h, hn, cupRolesGet]
      decide
    · simp [h, hn]
  · show buildRole el = r
    have hrole : buildRole el = cupRolesGet el.controlType := by
      unfold buildRole
      simp [hne]
    rw [hrole]
    unfold cupRolesGet
    rw [lookup_eq_some_of_mem CUP_ROLES el.controlType r (by decide) hmem]
    rfl
  · show buildRole el = "generic"
    have hne : el.controlType ≠ 50033 := by
      intro hc
      exact hnot (hc ▸ (by decide : (50033 : Nat) ∈ CUP_ROLES.map Prod.fst))
    have hrole : buildRole el = cupRolesGet el.controlType := by
      unfold buildRole
      simp [hne]
    rw [hrole]
    unfold cupRolesGet
    rw [lookup_eq_none_of_not_mem CUP_ROLES el.controlType hnot]
    rfl

/-- Witness for C9: a named pane becomes `region`, an unnamed pane
`generic`; an Edit control (50004) maps to `textbox` through the table; the
out-of-table control type 60000 maps to `generic`. -/
theorem C9_role_mapping_witness :
    (build_cup_node { elBase with controlType := 50033, name := "Side" } 0).data.role =
      (if ({ elBase with controlType := 50033, name := "Side" } : UiaElement).name = ""
        then "generic" else "region") ∧
    (build_cup_node { elBase with controlType := 50004 } 1).data.role = "textbox" ∧
    (build_cup_node { elBase with controlType := 60000 } 2).data.role = "generic" :=
  ⟨(C9_role_mapping { elBase with controlType := 50033, name := "Side" } 0).1 (by decide),
   (C9_role_mapping { elBase with controlType := 50004 } 1).2.1 "textbox" (by decide) (by decide),
   (C9_role_mapping { elBase with controlType := 60000 } 2).2.2 (by decide)⟩

/-- Preorder id collection distributes over forest concatenation. -/
theorem forestIds_append (l₁ l₂ : List CupNode) :
    forestIds (l₁ ++ l₂) = forestIds l₁ ++ forestIds l₂ := by
  induction l₁ with
  | nil => simp [forestIds]
  | cons c rest ih => simp [forestIds, ih]

/-- Preorder node collection distributes over forest concatenation. -/
theorem forestList_append (l₁ l₂ : List CupNode) :
    forestList (l₁ ++ l₂) = forestList l₁ ++ forestList l₂ := by
  induction l₁ with
  | nil => simp [forestList]
  | cons c rest ih => simp [forestList, ih]

/-- Standard pruning only removes nodes: the ids of the pruned forest form a
sub-multiset of the ids of the input forest. -/
theorem prunePass_ids_le (cs : List CupNode) (parent : Option CupNode) (siblings : Nat) :
    (forestIds (prunePass cs parent siblings) : Multiset String) ≤
      (forestIds cs : Multiset String) := by
  refine prunePass.induct
    (fun n parent siblings =>
      (forestIds (pruneNode n parent siblings) : Multiset String) ≤
        (nodeIds n : Multiset String))
    (fun cs parent siblings =>
      (forestIds (prunePass cs parent siblings) : Multiset String) ≤
        (forestIds cs : Multiset String))
    ?_ ?_ ?_ ?_ ?_ cs parent siblings
  · intro p sib d children hh ih
    simp only [pruneNode, hh, if_true, nodeIds]
    refine ih.trans ?_
    rw [← Multiset.cons_coe]
    exact Multiset.le_cons_self _ _
  · intro p sib d children hh hsk
    simp [pruneNode, hh, hsk, forestIds]
  · intro p sib d children hh hsk ih
    simp only [pruneNode, hh, hsk, if_false, if_true, Bool.false_eq_true, nodeIds,
      forestIds, List.append_nil]
    rw [← Multiset.cons_coe, ← Multiset.cons_coe]
    exact Multiset.cons_le_cons _ ih
  · intro p sib
    simp [prunePass]
  · intro p sib c rest ih1 ih2
    simp only [prunePass, forestIds_append, forestIds]
    rw [← Multiset.coe_add, ← Multiset.coe_add]
    exact add_le_add ih1 ih2

/-- Minimal pruning only removes nodes: the ids of the pruned forest form a
sub-multiset of the ids of the input forest. -/
theorem pruneMinimalPass_ids_le (cs : List CupNode) :
    (forestIds (pruneMinimalPass cs) : Multiset String) ≤
      (forestIds cs : Multiset String) := by
  refine pruneMinimalPass.induct
    (fun n => ∀ m, pruneMinimalNode n = some m →
      (nodeIds m : Multiset String) ≤ (nodeIds n : Multiset String))
    (fun cs =>
      (forestIds (pruneMinimalPass cs) : Multiset String) ≤
        (forestIds cs : Multiset String))
    ?_ ?_ ?_ ?_ ?_ cs
  · intro d children kept hcond ih m hm
    simp only [pruneMinimalNode, hcond, if_true, Option.some.injEq] at hm
    subst hm
    simp only [nodeIds]
    rw [← Multiset.cons_coe, ← Multiset.cons_coe]
    exact Multiset.cons_le_cons _ ih
  · intro d children kept hcond ih m hm
    simp [pruneMinimalNode, hcond] at hm
  · simp [pruneMinimalPass]
  · intro c rest c' hc ih1 ih2
    simp only [pruneMinimalPass, hc, forestIds]
    rw [← Multiset.coe_add, ← Multiset.coe_add]
    exact add_le_add (ih1 c' hc) ih2
  · intro c rest hc ih1 ih2
    simp only [pruneMinimalPass, hc, forestIds]
    refine ih2.trans ?_
    rw [← Multiset.coe_add]
    exact le_add_self

/-- Minimal pruning of a forest is idempotent: every kept node was kept
because of meaningful actions or a kept child, and both persist through a
second pass. -/
theorem pruneMinimalPass_idem (cs : List CupNode) :
    pruneMinimalPass (pruneMinimalPass cs) = pruneMinimalPass cs := by
  refine pruneMinimalPass.induct
    (fun n => ∀ m, pruneMinimalNode n = some m → pruneMinimalNode m = some m)
    (fun cs => pruneMinimalPass (pruneMinimalPass cs) = pruneMinimalPass cs)
    ?_ ?_ ?_ ?_ ?_ cs
  · intro d children kept hcond ih m hm
    simp only [pruneMinimalNode, hcond, if_true, Option.some.injEq] at hm
    subst hm
    simp only [pruneMinimalNode, ih]
    rw [if_pos hcond]
  · intro d children kept hcond ih m hm
    simp [pruneMinimalNode, hcond] at hm
  · rfl
  · intro c rest c' hc ih1 ih2
    simp only [pruneMinimalPass, hc, ih1 c' hc, ih2]
  · intro c rest hc ih1 ih2
    simp only [pruneMinimalPass, hc, ih2]

/-- Counterexample to claim C1 as stated: standard pruning is not
idempotent.  On `exIdem`, the first pass removes the unnamed image, leaving
the text node as the sole child of its named parent; the second pass then
removes the text node as a redundant label, so the two results differ. -/
theorem C1_standard_not_idempotent :
    pruneTree exIdem .standard =
      [.node { exData with id := "e0", role := "button", name := "P" }
        [.node { exData with id := "e1", role := "text", name := "t" } []]] ∧
    pruneTree (pruneTree exIdem .standard) .standard =
      [.node { exData with id := "e0", role := "button", name := "P" } []] ∧
    pruneTree (pruneTree exIdem .standard) .standard ≠ pruneTree exIdem .standard := by
  refine ⟨by decide, by decide, by decide⟩

/-- Claim C1 (amended): pruning is idempotent for the detail levels
`minimal` and `full`; for `standard` a second application can remove further
nodes (a text node can become the sole child of a named parent when a
sibling is pruned), as the counterexample shows. -/
theorem C1_idempotent_minimal_full (t : List CupNode) :
    pruneTree (pruneTree t .minimal) .minimal = pruneTree t .minimal ∧
    pruneTree (pruneTree t .full) .full = pruneTree t .full :=
  ⟨pruneMinimalPass_idem t, rfl⟩

/-- Counterexample to claim C2 as stated: on `exMono` (an unnamed image
carrying a `click` action) minimal pruning keeps id `e0` while standard
pruning skips the node, so `prune(minimal) ⊆ prune(standard)` fails as
multisets of ids. -/
theorem C2_minimal_not_le_standard :
    forestIds (pruneTree exMono .minimal) = ["e0"] ∧
    forestIds (pruneTree exMono .standard) = [] ∧
    ¬ ((forestIds (pruneTree exMono .minimal) : Multiset String) ≤
        (forestIds (pruneTree exMono .standard) : Multiset String)) := by
  refine ⟨by decide, by decide, by decide⟩

/-- Claim C2 (amended): as multisets of ids,
`prune(detail=standard) ⊆ prune(detail=full)` and
`prune(detail=minimal) ⊆ prune(detail=full)` hold for every tree, but
`prune(detail=minimal) ⊆ prune(detail=standard)` does not hold in general:
the code applies minimal pruning to the raw tree (not to the standard
result), and standard pruning can skip a subtree containing action-bearing
nodes that minimal pruning keeps. -/
theorem C2_pruning_le_full (t : List CupNode) :
    (forestIds (pruneTree t .standard) : Multiset String) ≤
      (forestIds (pruneTree t .full) : Multiset String) ∧
    (forestIds (pruneTree t .minimal) : Multiset String) ≤
      (forestIds (pruneTree t .full) : Multiset String) :=
  ⟨prunePass_ids_le t none t.length, pruneMinimalPass_ids_le t⟩

/-- Every node of a standard-pruned forest is a data-identical copy of some
node of the input forest (only its `children` list may differ). -/
theorem prunePass_data_preserved (cs : List CupNode) (parent : Option CupNode)
    (siblings : Nat) :
    ∀ m, m ∈ forestList (prunePass cs parent siblings) →
      ∃ x, x ∈ forestList cs ∧ x.data = m.data := by
  refine prunePass.induct
    (fun n parent siblings => ∀ m, m ∈ forestList (pruneNode n parent siblings) →
      ∃ x, x ∈ nodeList n ∧ x.data = m.data)
    (fun cs parent siblings => ∀ m, m ∈ forestList (prunePass cs parent siblings) →
      ∃ x, x ∈ forestList cs ∧ x.data = m.data)
    ?_ ?_ ?_ ?_ ?_ cs parent siblings
  · intro p sib d children hh ih m hm
    simp only [pruneNode, hh, if_true] at hm
    obtain ⟨x, hx, hxd⟩ := ih m hm
    exact ⟨x, by simp [nodeList, hx], hxd⟩
  · intro p sib d children hh hsk m hm
    simp [pruneNode, hh, hsk, forestList] at hm
  · intro p sib d children hh hsk ih m hm
    simp only [pruneNode, hh, hsk, if_false, Bool.false_eq_true, if_true, forestList,
      nodeList, List.append_nil, List.mem_cons] at hm
    rcases hm with hm | hm
    · subst hm
      exact ⟨.node d children, by simp [nodeList], rfl⟩
    · obtain ⟨x, hx, hxd⟩ := ih m hm
      exact ⟨x, by simp [nodeList, hx], hxd⟩
  · intro p sib m hm
    simp [prunePass, forestList] at hm
  · intro p sib c rest ih1 ih2 m hm
    simp only [prunePass, forestList_append, List.mem_append] at hm
    rcases hm with hm | hm
    · obtain ⟨x, hx, hxd⟩ := ih1 m hm
      exact ⟨x, by simp [forestList, List.mem_append, hx], hxd⟩
    · obtain ⟨x, hx, hxd⟩ := ih2 m hm
      exact ⟨x, by simp [forestList, List.mem_append, hx], hxd⟩

/-- Every node of a minimal-pruned forest is a data-identical copy of some
node of the input forest. -/
theorem pruneMinimalPass_data_preserved (cs : List CupNode) :
    ∀ m, m ∈ forestList (pruneMinimalPass cs) →
      ∃ x, x ∈ forestList cs ∧ x.data = m.data := by
  refine pruneMinimalPass.induct
    (fun n => ∀ m' m, pruneMinimalNode n = some m' → m ∈ nodeList m' →
      ∃ x, x ∈ nodeList n ∧ x.data = m.data)
    (fun cs => ∀ m, m ∈ forestList (pruneMinimalPass cs) →
      ∃ x, x ∈ forestList cs ∧ x.data = m.data)
    ?_ ?_ ?_ ?_ ?_ cs
  · intro d children kept hcond ih m' m hm' hm
    simp only [pruneMinimalNode, hcond, if_true, Option.some.injEq] at hm'
    subst hm'
    simp only [nodeList, List.mem_cons] at hm
    rcases hm with hm | hm
    · subst hm
      exact ⟨.node d children, by simp [nodeList], rfl⟩
    · obtain ⟨x, hx, hxd⟩ := ih m hm
      exact ⟨x, by simp [nodeList, hx], hxd⟩
  · intro d children kept hcond ih m' m hm' hm
    simp [pruneMinimalNode, hcond] at hm'
  · intro m hm
    simp [pruneMinimalPass, forestList] at hm
  · intro c rest c' hc ih1 ih2 m hm
    simp only [pruneMinimalPass, hc, forestList, List.mem_append] at hm
    rcases hm with hm | hm
    · obtain ⟨x, hx, hxd⟩ := ih1 c' m hc hm
      exact ⟨x, by simp [forestList, List.mem_append, hx], hxd⟩
    · obtain ⟨x, hx, hxd⟩ := ih2 m hm
      exact ⟨x, by simp [forestList, List.mem_append, hx], hxd⟩
  · intro c rest hc ih1 ih2 m hm
    simp only [pruneMinimalPass, hc] at hm
    obtain ⟨x, hx, hxd⟩ := ih2 m hm
    exact ⟨x, by simp [forestList, List.mem_append, hx], hxd⟩

/-- Claim C3: every node of a pruned tree (any detail level) carries an id
that also appears in the input tree, with identical role, name and actions;
pruning never changes or renumbers ids, it only removes nodes. -/
theorem C3_id_preservation (t : List CupNode) (detail : Detail) (m : CupNode)
    (hm : m ∈ forestList (pruneTree t detail)) :
    ∃ n, n ∈ forestList t ∧ n.data.id = m.data.id ∧ n.data.role = m.data.role ∧
      n.data.name = m.data.name ∧ n.data.actions = m.data.actions := by
  have key : ∃ x, x ∈ forestList t ∧ x.data = m.data := by
    cases detail with
    | full => exact ⟨m, hm, rfl⟩
    | minimal => exact pruneMinimalPass_data_preserved t m hm
    | standard => exact prunePass_data_preserved t none t.length m hm
  obtain ⟨x, hx, hxd⟩ := key
  exact ⟨x, hx, by rw [hxd], by rw [hxd], by rw [hxd], by rw [hxd]⟩

/-- Witness for C3: the text node kept by standard pruning of `exIdem`
corresponds to a data-identical node of the raw tree. -/
theorem C3_id_preservation_witness :
    ∃ n, n ∈ forestList exIdem ∧
      n.data.id = "e1" ∧ n.data.role = "text" ∧ n.data.name = "t" ∧ n.data.actions = [] :=
  C3_id_preservation exIdem .standard
    (.node { exData with id := "e1", role := "text", name := "t" } []) (by decide)

/-- Heap preservation is reflexive. -/
theorem heapPreserved_refl (σ : PyHeap) : HeapPreserved σ σ :=
  ⟨le_refl _, fun _ _ => rfl⟩

/-- Heap preservation composes. -/
theorem heapPreserved_trans {σ₁ σ₂ σ₃ : PyHeap}
    (h₁ : HeapPreserved σ₁ σ₂) (h₂ : HeapPreserved σ₂ σ₃) : HeapPreserved σ₁ σ₃ :=
  ⟨h₁.1.trans h₂.1, fun i hi => (h₂.2 i (lt_of_lt_of_le hi h₁.1)).trans (h₁.2 i hi)⟩

/-- Allocation (appending fresh objects) preserves the heap. -/
theorem heapPreserved_append (σ : PyHeap) (l : List PyObj) : HeapPreserved σ (σ ++ l) :=
  ⟨by simp, fun i hi => List.get?_append hi⟩

/-- Writing a field of an object allocated after the preserved region keeps
the region preserved. -/
theorem heapPreserved_set {σ σ' : PyHeap} (h : HeapPreserved σ σ') (j : Nat)
    (hj : σ.length ≤ j) (x : PyObj) : HeapPreserved σ (σ'.set j x) := by
  refine ⟨by simpa using h.1, fun i hi => ?_⟩
  rw [List.get?_set_ne x σ' (by omega : j ≠ i)]
  exact h.2 i hi

/-- The heap frame property of `_prune_node`/`prune_tree` (standard detail):
a run only reads existing objects and writes freshly allocated ones. -/
theorem prunePassS_frame (fuel : Nat) (cs : List Nat) (parent : Option Nat)
    (siblings : Nat) (σ : PyHeap) :
    HeapPreserved σ (prunePassS fuel cs parent siblings σ).2 := by
  refine prunePassS.induct
    (fun fuel a parent siblings σ =>
      HeapPreserved σ (pruneNodeS fuel a parent siblings σ).2)
    (fun fuel cs parent siblings σ =>
      HeapPreserved σ (prunePassS fuel cs parent siblings σ).2)
    ?_ ?_ ?_ ?_ ?_ ?_ ?_ ?_ fuel cs parent siblings σ
  · intro a p sib σ'
    simp only [pruneNodeS]
    exact heapPreserved_refl σ'
  · intro fl a p sib σ' d ca hget kids hh ih
    simp only [pruneNodeS, hget, hh, if_true]
    exact ih
  · intro fl a p sib σ' d ca hget hh hsk
    simp only [pruneNodeS, hget, hh, hsk, Bool.false_eq_true, if_false, if_true]
    exact heapPreserved_refl σ'
  · intro fl a p sib σ' d ca hget kids hh hsk res hemp ih
    simp only [pruneNodeS, hget, hh, hsk, hemp, Bool.false_eq_true, if_false, if_true]
    exact heapPreserved_trans ih (heapPreserved_append _ _)
  · intro fl a p sib σ' d ca hget kids hh hsk res hemp ih
    simp only [pruneNodeS, hget, hh, hsk, hemp, Bool.false_eq_true, if_false, if_true]
    refine heapPreserved_set
      (heapPreserved_trans ih
        (heapPreserved_trans (heapPreserved_append _ [PyObj.dict d none])
          (heapPreserved_append _ [PyObj.list res.1]))) _ ?_ _
    exact ih.1
  · intro fl a p sib σ' hnd
    rw [pruneNodeS.eq_def]
    cases hga : σ'.get? a with
    | none =>
      simp only [hga]
      exact heapPreserved_refl σ'
    | some o =>
      cases o with
      | dict d ca => exact absurd hga (fun hc => hnd d ca hc)
      | list es =>
        simp only [hga]
        exact heapPreserved_refl σ'
  · intro fl p sib σ'
    rw [prunePassS.eq_def]
    exact heapPreserved_refl σ'
  · intro fl c rest p sib σ' r1 ih1 ih2
    simp only [prunePassS]
    exact heapPreserved_trans ih1 ih2

/-- The heap frame property of `_prune_minimal_node`. -/
theorem pruneMinimalPassS_frame (fuel : Nat) (cs : List Nat) (σ : PyHeap) :
    HeapPreserved σ (pruneMinimalPassS fuel cs σ).2 := by
  refine pruneMinimalPassS.induct
    (fun fuel a σ => HeapPreserved σ (pruneMinimalNodeS fuel a σ).2)
    (fun fuel cs σ => HeapPreserved σ (pruneMinimalPassS fuel cs σ).2)
    ?_ ?_ ?_ ?_ ?_ ?_ ?_ fuel cs σ
  · intro a σ'
    rw [pruneMinimalNodeS.eq_def]
    exact heapPreserved_refl σ'
  · intro fl a σ' d ca hget res hcond hemp ih
    simp only [pruneMinimalNodeS, hget, hcond, if_true]
    simp only [hemp, if_true]
    exact heapPreserved_trans ih (heapPreserved_append _ _)
  · intro fl a σ' d ca hget res hcond hemp ih
    simp only [pruneMinimalNodeS, hget, hcond, if_true]
    simp only [hemp, Bool.false_eq_true, if_false]
    refine heapPreserved_set
      (heapPreserved_trans ih
        (heapPreserved_trans (heapPreserved_append _ [PyObj.dict d none])
          (heapPreserved_append _ [PyObj.list res.1]))) _ ?_ _
    exact ih.1
  · intro fl a σ' d ca hget res hcond ih
    simp only [pruneMinimalNodeS, hget, hcond, Bool.false_eq_true, if_false]
    exact ih
  · intro fl a σ' hnd
    rw [pruneMinimalNodeS.eq_def]
    cases hga : σ'.get? a with
    | none =>
      simp only [hga]
      exact heapPreserved_refl σ'
    | some o =>
      cases o with
      | dict d ca => exact absurd hga (fun hc => hnd d ca hc)
      | list es =>
        simp only [hga]
        exact heapPreserved_refl σ'
  · intro fl σ'
    rw [pruneMinimalPassS.eq_def]
    exact heapPreserved_refl σ'
  · intro fl c rest σ' r1 ih1 ih2
    simp only [pruneMinimalPassS]
    exact heapPreserved_trans ih1 ih2

/-- The heap frame property of `copy.deepcopy` on the tree (detail `full`):
a deep copy allocates fresh objects and writes nothing. -/
theorem deepcopyListS_frame (fuel : Nat) (cs : List Nat) (σ : PyHeap) :
    HeapPreserved σ (deepcopyListS fuel cs σ).2 := by
  refine deepcopyListS.induct
    (fun fuel a σ => HeapPreserved σ (deepcopyNodeS fuel a σ).2)
    (fun fuel cs σ => HeapPreserved σ (deepcopyListS fuel cs σ).2)
    ?_ ?_ ?_ ?_ ?_ ?_ fuel cs σ
  · intro a σ'
    rw [deepcopyNodeS.eq_def]
    exact heapPreserved_refl σ'
  · intro fl a σ' d hget
    simp only [deepcopyNodeS, hget]
    exact heapPreserved_append σ' _
  · intro fl a σ' d la hget ih
    simp only [deepcopyNodeS, hget]
    exact heapPreserved_trans ih
      (heapPreserved_trans (heapPreserved_append _ _) (heapPreserved_append _ _))
  · intro fl a σ' hnd
    rw [deepcopyNodeS.eq_def]
    cases hga : σ'.get? a with
    | none =>
      simp only [hga]
      exact heapPreserved_refl σ'
    | some o =>
      cases o with
      | dict d ca => exact absurd hga (fun hc => hnd d ca hc)
      | list es =>
        simp only [hga]
        exact heapPreserved_refl σ'
  · intro fl σ'
    rw [deepcopyListS.eq_def]
    exact heapPreserved_refl σ'
  · intro fl c rest σ' r1 ih1 ih2
    simp only [deepcopyListS]
    exact heapPreserved_trans ih1 ih2

/-- Claim C10: `prune_tree` never mutates its argument.  In the explicit
heap model of the Python run (allocation appends, the single field write
`pruned[children] = pruned_children` is a `List.set`), every object that
existed before the call — every node dict and every nested children list —
is unchanged at its address after the call, for every detail level, every
recursion budget and every input forest. -/
theorem C10_prune_no_mutation (fuel : Nat) (detail : Detail) (roots : List Nat)
    (σ : PyHeap) (i : Nat) (hi : i < σ.length) :
    (pruneTreeS fuel detail roots σ).2.get? i = σ.get? i := by
  cases detail with
  | full => exact (deepcopyListS_frame fuel roots σ).2 i hi
  | minimal => exact (pruneMinimalPassS_frame fuel roots σ).2 i hi
  | standard => exact (prunePassS_frame fuel roots none roots.length σ).2 i hi

/-- Witness for C10: pruning a one-node heap at any detail level leaves the
original node dict unchanged at address 0. -/
theorem C10_prune_no_mutation_witness :
    0 < exHeap.length ∧
    (pruneTreeS 5 .standard [0] exHeap).2.get? 0 = exHeap.get? 0 ∧
    (pruneTreeS 5 .minimal [0] exHeap).2.get? 0 = exHeap.get? 0 ∧
    (pruneTreeS 5 .full [0] exHeap).2.get? 0 = exHeap.get? 0 :=
  ⟨by decide,
   C10_prune_no_mutation 5 .standard [0] exHeap 0 (by decide),
   C10_prune_no_mutation 5 .minimal [0] exHeap 0 (by decide),
   C10_prune_no_mutation 5 .full [0] exHeap 0 (by decide)⟩
